import Mathlib

/-!
Verification of the game-theoretic governance validators of the
ai-agent-governance-framework repository.

The development shallowly embeds the two validator modules
(`scripts/game_theory/raci_game_validator.py` and
`scripts/game_theory/cooperative_improvement_validator.py`) and the
tit-for-tat reputation rule exercised by
`scripts/game_theory/test_tit_for_tat.py`.

Conventions of the embedding:
* Python `float` values are modelled as exact rationals (`ℚ`);
* Python `None`-able object references are modelled with `Option`;
* a Python runtime error (attribute access on `None`, `ZeroDivisionError`)
  is modelled by `Option`/`Except` failure of the embedded function;
* Python f-string diagnostic messages are modelled by inductive types that
  carry the data interpolated into the message;
* Python dataclass `==` is structural equality (`DecidableEq` on the
  corresponding structure), and Python's stable `sorted` is modelled with
  `List.insertionSort`, the stable insertion sort.
-/

namespace Governance

/-- `AgentTier` enum of `raci_game_validator.py`. -/
inductive AgentTier where
  | tier1_observer
  | tier2_developer
  | tier3_operations
  | tier4_architect
deriving DecidableEq, Repr

/-- `AgentTier.value` (the numeric value attached to each enum member). -/
def AgentTier.value : AgentTier → Nat
  | .tier1_observer => 1
  | .tier2_developer => 2
  | .tier3_operations => 3
  | .tier4_architect => 4

/-- `Agent` dataclass of `raci_game_validator.py`. -/
structure Agent where
  agent_id : String
  tier : AgentTier
  controls : List String
  cost_per_action : ℚ
  risk_tolerance : ℚ
deriving DecidableEq, Repr

/-- `Action` dataclass of `raci_game_validator.py`. -/
structure Action where
  action_id : String
  control_id : String
  description : String
  cost : ℚ
  risk : ℚ
  compliance_value : ℚ
  requires_approval : Bool
deriving DecidableEq, Repr

/-- `RACIAssignment` dataclass.  `responsible` and `accountable` are typed
`Agent` in the source but the validator explicitly tests them for `None`,
so they are embedded as `Option Agent`. -/
structure RACIAssignment where
  control_id : String
  responsible : Option Agent
  accountable : Option Agent
  consulted : List Agent
  informed : List Agent
deriving DecidableEq, Repr

/-- `GameState` dataclass. -/
structure GameState where
  agents : List Agent
  raci_assignments : List RACIAssignment
  actions_taken : List (Agent × Action)
  compliance_score : ℚ
  total_cost : ℚ
  total_risk : ℚ
deriving DecidableEq, Repr

/-- The state held by a `RACIGameValidator` instance (constructor arguments). -/
structure RACIGameValidator where
  agents : List Agent
  raci_assignments : List RACIAssignment
deriving DecidableEq, Repr

/-- One diagnostic message appended to `violations` by
`RACIGameValidator.validate_raci_constraints`, carrying the data that the
source interpolates into the f-string. -/
inductive RACIViolation where
  | noAccountable (control : String)
  | noResponsible (control : String)
  | bothRandA (control : String) (agentId : String)
  | accountableTierTooLow (control : String) (agentId : String) (tier : Nat)
deriving DecidableEq, Repr

/-- The violations contributed by a single assignment in the loop body of
`validate_raci_constraints`.  Returns `none` when the source would raise
(`assignment.responsible.agent_id` on `None`, which happens exactly when
`responsible == accountable` holds with both equal to `None`). -/
def assignmentViolations (a : RACIAssignment) : Option (List RACIViolation) :=
  let v1 : List RACIViolation :=
    if a.accountable = none then [.noAccountable a.control_id] else []
  let v2 : List RACIViolation :=
    if a.responsible = none then [.noResponsible a.control_id] else []
  let v4 : List RACIViolation :=
    match a.accountable with
    | some acc =>
        if acc.tier.value < 3 then
          [.accountableTierTooLow a.control_id acc.agent_id acc.tier.value]
        else []
    | none => []
  if a.responsible = a.accountable then
    match a.responsible with
    | some r => some (v1 ++ v2 ++ [.bothRandA a.control_id r.agent_id] ++ v4)
    | none => none
  else
    some (v1 ++ v2 ++ v4)

/-- The loop of `validate_raci_constraints`, concatenating the violations of
every assignment in order (no short-circuit). -/
def collectViolations : List RACIAssignment → Option (List RACIViolation)
  | [] => some []
  | a :: rest =>
    match assignmentViolations a, collectViolations rest with
    | some v, some vs => some (v ++ vs)
    | _, _ => none

/-- `RACIGameValidator.validate_raci_constraints`:
returns `(len(violations) == 0, violations)`. -/
def validate_raci_constraints (v : RACIGameValidator) :
    Option (Bool × List RACIViolation) :=
  (collectViolations v.raci_assignments).map (fun vs => (vs.isEmpty, vs))

/-- The per-assignment well-formedness condition that actually characterises
an empty violation list in the source: both roles present, distinct, and the
accountable agent at tier 3 or above. -/
def AssignmentOk (a : RACIAssignment) : Prop :=
  a.accountable ≠ none ∧ a.responsible ≠ none ∧ a.responsible ≠ a.accountable ∧
    ∀ acc, a.accountable = some acc → 3 ≤ acc.tier.value

lemma assignmentViolations_spec (a : RACIAssignment) (vs : List RACIViolation)
    (h : assignmentViolations a = some vs) :
    (vs = [] ↔ AssignmentOk a) ∧
    (a.accountable = none → RACIViolation.noAccountable a.control_id ∈ vs) ∧
    (a.responsible = none → RACIViolation.noResponsible a.control_id ∈ vs) ∧
    (∀ r, a.responsible = some r → a.accountable = some r →
      RACIViolation.bothRandA a.control_id r.agent_id ∈ vs) ∧
    (∀ acc, a.accountable = some acc → acc.tier.value < 3 →
      RACIViolation.accountableTierTooLow a.control_id acc.agent_id acc.tier.value ∈ vs) := by
  obtain ⟨c, ro, ao, cons, inf⟩ := a
  cases ro with
  | none =>
    cases ao with
    | none => simp [assignmentViolations] at h
    | some acc =>
      by_cases hlt : acc.tier.value < 3
      · simp only [assignmentViolations, reduceCtorEq, reduceIte, hlt] at h
        simp only [Option.some.injEq] at h
        subst h
        simp [AssignmentOk, hlt]
      · simp only [assignmentViolations, reduceCtorEq, reduceIte, hlt] at h
        simp only [Option.some.injEq] at h
        subst h
        simp [AssignmentOk, hlt]
        omega
  | some r =>
    cases ao with
    | none =>
      simp only [assignmentViolations, reduceCtorEq, reduceIte] at h
      simp only [Option.some.injEq] at h
      subst h
      simp [AssignmentOk]
    | some acc =>
      by_cases hra : r = acc
      · subst hra
        by_cases hlt : r.tier.value < 3
        · simp only [assignmentViolations, reduceCtorEq, reduceIte, hlt] at h
          simp only [Option.some.injEq] at h
          subst h
          simp [AssignmentOk, hlt]
        · simp only [assignmentViolations, reduceCtorEq, reduceIte, hlt] at h
          simp only [Option.some.injEq] at h
          subst h
          simp only [AssignmentOk]
          refine ⟨?_, ?_, ?_, ?_, ?_⟩ <;> simp [hlt] <;> omega
      · by_cases hlt : acc.tier.value < 3
        · simp only [assignmentViolations, Option.some.injEq, hra, reduceIte, hlt] at h
          subst h
          simp only [AssignmentOk]
          refine ⟨?_, ?_, ?_, ?_, ?_⟩ <;> simp [hra, hlt] <;>
            first
            | omega
            | exact fun hc => hra hc.symm
        · simp only [assignmentViolations, Option.some.injEq, hra, reduceIte, hlt] at h
          subst h
          simp only [AssignmentOk]
          refine ⟨?_, ?_, ?_, ?_, ?_⟩ <;> simp [hra, hlt] <;>
            first
            | omega
            | exact fun hc => hra hc.symm

lemma collectViolations_spec (l : List RACIAssignment) (vs : List RACIViolation)
    (h : collectViolations l = some vs) :
    (vs = [] ↔ ∀ a ∈ l, AssignmentOk a) ∧
    (∀ a ∈ l, a.accountable = none → RACIViolation.noAccountable a.control_id ∈ vs) ∧
    (∀ a ∈ l, a.responsible = none → RACIViolation.noResponsible a.control_id ∈ vs) ∧
    (∀ a ∈ l, ∀ r, a.responsible = some r → a.accountable = some r →
      RACIViolation.bothRandA a.control_id r.agent_id ∈ vs) ∧
    (∀ a ∈ l, ∀ acc, a.accountable = some acc → acc.tier.value < 3 →
      RACIViolation.accountableTierTooLow a.control_id acc.agent_id acc.tier.value ∈ vs) := by
  induction l generalizing vs with
  | nil =>
    simp only [collectViolations] at h
    injection h with h'
    subst h'
    simp
  | cons a rest ih =>
    simp only [collectViolations] at h
    cases ha : assignmentViolations a with
    | none => rw [ha] at h; exact absurd h (by simp)
    | some v =>
      cases hrest : collectViolations rest with
      | none => rw [ha, hrest] at h; exact absurd h (by simp)
      | some ws =>
        rw [ha, hrest] at h
        injection h with h'
        subst h'
        obtain ⟨e1, e2, e3, e4, e5⟩ := assignmentViolations_spec a v ha
        obtain ⟨f1, f2, f3, f4, f5⟩ := ih ws hrest
        refine ⟨?_, ?_, ?_, ?_, ?_⟩
        · rw [List.append_eq_nil]
          constructor
          · rintro ⟨hv, hw⟩ b hb
            rcases List.mem_cons.mp hb with hb | hb
            · subst hb; exact e1.mp hv
            · exact (f1.mp hw) b hb
          · intro hall
            exact ⟨e1.mpr (hall a (List.mem_cons_self a rest)),
                   f1.mpr (fun b hb => hall b (List.mem_cons_of_mem a hb))⟩
        · intro b hb hnone
          rcases List.mem_cons.mp hb with hb | hb
          · subst hb; exact List.mem_append_left _ (e2 hnone)
          · exact List.mem_append_right _ (f2 b hb hnone)
        · intro b hb hnone
          rcases List.mem_cons.mp hb with hb | hb
          · subst hb; exact List.mem_append_left _ (e3 hnone)
          · exact List.mem_append_right _ (f3 b hb hnone)
        · intro b hb r h1 h2
          rcases List.mem_cons.mp hb with hb | hb
          · subst hb; exact List.mem_append_left _ (e4 r h1 h2)
          · exact List.mem_append_right _ (f4 b hb r h1 h2)
        · intro b hb acc h1 h2
          rcases List.mem_cons.mp hb with hb | hb
          · subst hb; exact List.mem_append_left _ (e5 acc h1 h2)
          · exact List.mem_append_right _ (f5 b hb acc h1 h2)

/-- A tier-4 agent used in concrete test inputs. -/
def exArchitect : Agent :=
  { agent_id := "architect-agent", tier := .tier4_architect, controls := [],
    cost_per_action := 1, risk_tolerance := 0 }

/-- A tier-3 agent used in concrete test inputs. -/
def exOps : Agent :=
  { agent_id := "ops-agent", tier := .tier3_operations, controls := [],
    cost_per_action := 1, risk_tolerance := 0 }

/-- An assignment whose responsible agent (tier 4) outranks its accountable
agent (tier 3): the source accepts it, the claimed tier rule rejects it. -/
def exInvertedAssignment : RACIAssignment :=
  { control_id := "APP-001", responsible := some exArchitect,
    accountable := some exOps, consulted := [], informed := [] }

/-- Validator instance holding `exInvertedAssignment`. -/
def exInvertedValidator : RACIGameValidator :=
  { agents := [exArchitect, exOps], raci_assignments := [exInvertedAssignment] }

/-- C1, counterexample.  The claim requires `ok = true` to imply
`accountable.tier ≥ responsible.tier` for every assignment, but
`validate_raci_constraints` accepts an assignment whose accountable agent
(tier 3) is outranked by its responsible agent (tier 4): the source's fourth
rule only demands `accountable.tier ≥ 3`, ignoring the responsible's tier. -/
theorem validate_raci_constraints_tier_counterexample :
    validate_raci_constraints exInvertedValidator = some (true, []) ∧
    ¬ ((exOps.tier.value : ℕ) ≥ exArchitect.tier.value) := by
  constructor
  · decide
  · decide

/-- C1 (amended): `validate_raci_constraints` returns `ok = true` iff every
assignment has an accountable agent, a responsible agent, responsible ≠
accountable, and the accountable agent's tier is ≥ 3 (not ≥ the responsible's
tier as claimed); and every rule violated by an assignment contributes its
corresponding message to the returned `violations` list, all collected with
no short-circuit. -/
theorem validate_raci_constraints_spec (v : RACIGameValidator)
    (ok : Bool) (vs : List RACIViolation)
    (h : validate_raci_constraints v = some (ok, vs)) :
    (ok = true ↔ ∀ a ∈ v.raci_assignments,
      a.accountable ≠ none ∧ a.responsible ≠ none ∧
      a.responsible ≠ a.accountable ∧
      ∀ acc, a.accountable = some acc → 3 ≤ acc.tier.value) ∧
    (∀ a ∈ v.raci_assignments, a.accountable = none →
      RACIViolation.noAccountable a.control_id ∈ vs) ∧
    (∀ a ∈ v.raci_assignments, a.responsible = none →
      RACIViolation.noResponsible a.control_id ∈ vs) ∧
    (∀ a ∈ v.raci_assignments, ∀ r, a.responsible = some r →
      a.accountable = some r →
      RACIViolation.bothRandA a.control_id r.agent_id ∈ vs) ∧
    (∀ a ∈ v.raci_assignments, ∀ acc, a.accountable = some acc →
      acc.tier.value < 3 →
      RACIViolation.accountableTierTooLow a.control_id acc.agent_id acc.tier.value ∈ vs) := by
  unfold validate_raci_constraints at h
  cases hc : collectViolations v.raci_assignments with
  | none => rw [hc] at h; exact absurd h (by simp)
  | some ws =>
    rw [hc] at h
    simp only [Option.map_some', Option.some.injEq, Prod.mk.injEq] at h
    obtain ⟨hok, hvs⟩ := h
    subst hvs
    obtain ⟨e1, e2, e3, e4, e5⟩ := collectViolations_spec v.raci_assignments ws hc
    refine ⟨?_, e2, e3, e4, e5⟩
    rw [← hok, List.isEmpty_iff]
    exact ⟨fun hnil => (e1.mp hnil), fun hall => e1.mpr hall⟩

/-- C1, witness: the amended theorem applied to the concrete validator
holding one well-formed assignment. -/
theorem validate_raci_constraints_spec_witness :
    (true = true ↔ ∀ a ∈ exInvertedValidator.raci_assignments,
      a.accountable ≠ none ∧ a.responsible ≠ none ∧
      a.responsible ≠ a.accountable ∧
      ∀ acc, a.accountable = some acc → 3 ≤ acc.tier.value) :=
  (validate_raci_constraints_spec exInvertedValidator true [] (by decide)).1

/-- `PayoffMatrix` dataclass (the `breakdown` dict is carried as an
association list in source insertion order). -/
structure PayoffMatrix where
  agent : Agent
  action : Action
  payoff : ℚ
  breakdown : List (String × ℚ)
deriving DecidableEq, Repr

/-- The `cooperation_bonus` accumulation loop inside
`RACIGameValidator.calculate_payoff`: for every assignment whose control
matches, `+= 2.0` when the agent is its responsible, else `+= 0.5` when the
agent is among its consulted. -/
def cooperation_bonus (assignments : List RACIAssignment) (agent : Agent)
    (control : String) : ℚ :=
  assignments.foldl
    (fun acc asg =>
      if asg.control_id = control then
        if asg.responsible = some agent then acc + 2
        else if agent ∈ asg.consulted then acc + 1/2
        else acc
      else acc) 0

/-- The bonus a single assignment contributes in the loop above. -/
def bonusContribution (agent : Agent) (control : String)
    (asg : RACIAssignment) : ℚ :=
  if asg.control_id = control then
    if asg.responsible = some agent then 2
    else if agent ∈ asg.consulted then 1/2
    else 0
  else 0

lemma cooperation_bonus_eq_sum (assignments : List RACIAssignment)
    (agent : Agent) (control : String) :
    cooperation_bonus assignments agent control =
      (assignments.map (bonusContribution agent control)).sum := by
  suffices h : ∀ acc : ℚ, assignments.foldl
      (fun acc asg =>
        if asg.control_id = control then
          if asg.responsible = some agent then acc + 2
          else if agent ∈ asg.consulted then acc + 1/2
          else acc
        else acc) acc =
        acc + (assignments.map (bonusContribution agent control)).sum by
    simpa [cooperation_bonus] using h 0
  induction assignments with
  | nil => intro acc; simp
  | cons a l ih =>
    intro acc
    have hstep : (if a.control_id = control then
        if a.responsible = some agent then acc + 2
        else if agent ∈ a.consulted then acc + 1/2
        else acc
      else acc) = acc + bonusContribution agent control a := by
      unfold bonusContribution
      split_ifs <;> ring
    simp only [List.foldl_cons, List.map_cons, List.sum_cons, hstep, ih]
    ring

/-- `RACIGameValidator.calculate_payoff`.  The `game_state` parameter is
accepted exactly as in the source, whose body never reads it. -/
def calculate_payoff (v : RACIGameValidator) (agent : Agent) (action : Action)
    (game_state : GameState) : PayoffMatrix :=
  let compliance_value := action.compliance_value
  let cost := action.cost * agent.cost_per_action
  let risk_penalty := action.risk * (1 - agent.risk_tolerance)
  let b := cooperation_bonus v.raci_assignments agent action.control_id
  let payoff := compliance_value - cost - risk_penalty + b
  { agent := agent, action := action, payoff := payoff,
    breakdown := [("compliance_value", compliance_value), ("cost", -cost),
                  ("risk_penalty", -risk_penalty), ("cooperation_bonus", b),
                  ("total", payoff)] }

/-- The cooperation bonus as the spec's words describe it, for the
refinement comparison of C4: `+2.0` if the agent is Responsible for the
action's control, `+0.5` if Consulted for it, else `0`. -/
def specCooperationBonus (assignments : List RACIAssignment) (agent : Agent)
    (control : String) : ℚ :=
  if assignments.any (fun asg =>
      decide (asg.control_id = control) && decide (asg.responsible = some agent)) then 2
  else if assignments.any (fun asg =>
      decide (asg.control_id = control) && decide (agent ∈ asg.consulted)) then 1/2
  else 0

lemma sum_bonusContribution_eq_spec (agent : Agent) (control : String) :
    ∀ l : List RACIAssignment,
      l.countP (fun asg => decide (asg.control_id = control)) ≤ 1 →
      (l.map (bonusContribution agent control)).sum =
        specCooperationBonus l agent control := by
  intro l
  induction l with
  | nil => intro _; simp [specCooperationBonus]
  | cons a l ih =>
    intro hcount
    rw [List.countP_cons] at hcount
    by_cases hmatch : a.control_id = control
    · simp [hmatch] at hcount
      have hzero : l.countP (fun asg => decide (asg.control_id = control)) = 0 := by
        simpa using hcount
      have hnone : ∀ asg ∈ l, asg.control_id ≠ control := by
        intro asg hm
        have := List.countP_eq_zero.mp hzero asg hm
        simpa using this
      have hsuml : (l.map (bonusContribution agent control)).sum = 0 := by
        apply List.sum_eq_zero
        intro x hx
        rcases List.mem_map.mp hx with ⟨asg, hm, hmx⟩
        rw [← hmx]
        unfold bonusContribution
        simp [hnone asg hm]
      have hanyR : l.any (fun asg =>
          decide (asg.control_id = control) && decide (asg.responsible = some agent)) = false := by
        rw [List.any_eq_false]
        intro asg hm
        simp [hnone asg hm]
      have hanyC : l.any (fun asg =>
          decide (asg.control_id = control) && decide (agent ∈ asg.consulted)) = false := by
        rw [List.any_eq_false]
        intro asg hm
        simp [hnone asg hm]
      simp only [List.map_cons, List.sum_cons, hsuml, add_zero]
      unfold bonusContribution specCooperationBonus
      by_cases hresp : a.responsible = some agent
      · simp [hmatch, hresp]
      · by_cases hcons : agent ∈ a.consulted
        · simp [hmatch, hresp, hcons, List.any_cons, hanyR, hanyC]
        · simp [hmatch, hresp, hcons, List.any_cons, hanyR, hanyC]
    · simp [hmatch] at hcount
      have hrec := ih (by omega)
      have hcontrib : bonusContribution agent control a = 0 := by
        unfold bonusContribution
        simp [hmatch]
      simp only [List.map_cons, List.sum_cons, hcontrib, zero_add, hrec]
      unfold specCooperationBonus
      simp [List.any_cons, hmatch]

/-- Assignment on control `APP-001` with `exOps` responsible. -/
def exOpsResponsible : RACIAssignment :=
  { control_id := "APP-001", responsible := some exOps,
    accountable := some exArchitect, consulted := [], informed := [] }

/-- Validator whose assignment list repeats `exOpsResponsible` twice for the
same control, so the payoff loop accumulates the responsible bonus twice. -/
def exDupValidator : RACIGameValidator :=
  { agents := [exArchitect, exOps],
    raci_assignments := [exOpsResponsible, exOpsResponsible] }

/-- An action on control `APP-001` with zero cost, risk and compliance
value, isolating the cooperation bonus in the payoff. -/
def exZeroAction : Action :=
  { action_id := "zero", control_id := "APP-001", description := "",
    cost := 0, risk := 0, compliance_value := 0, requires_approval := false }

/-- An empty game state. -/
def exEmptyGameState : GameState :=
  { agents := [], raci_assignments := [], actions_taken := [],
    compliance_score := 0, total_cost := 0, total_risk := 0 }

/-- C4, counterexample.  With the same control assigned twice to the same
responsible agent, `calculate_payoff` pays the `+2.0` responsible bonus once
per matching assignment (total `4`), so the payoff is not the claimed
`compliance_value − cost·multiplier − risk·(1−tolerance) + bonus` with
`bonus ∈ {2.0, 0.5, 0}`. -/
theorem calculate_payoff_bonus_counterexample :
    (calculate_payoff exDupValidator exOps exZeroAction exEmptyGameState).payoff = 4 ∧
    specCooperationBonus exDupValidator.raci_assignments exOps exZeroAction.control_id = 2 ∧
    ¬ ((calculate_payoff exDupValidator exOps exZeroAction exEmptyGameState).payoff =
        exZeroAction.compliance_value - exZeroAction.cost * exOps.cost_per_action -
        exZeroAction.risk * (1 - exOps.risk_tolerance) +
        specCooperationBonus exDupValidator.raci_assignments exOps exZeroAction.control_id) := by
  refine ⟨?_, ?_, ?_⟩ <;>
    norm_num [calculate_payoff, cooperation_bonus, specCooperationBonus,
      exDupValidator, exOpsResponsible, exZeroAction, exOps, exArchitect,
      exEmptyGameState]

/-- C4 (amended): `calculate_payoff` returns exactly
`compliance_value − cost·cost_per_action − risk·(1−risk_tolerance) + bonus`
where `bonus` is the SUM over all assignments matching the action's control
of (+2.0 if the agent is that assignment's responsible, else +0.5 if
consulted, else 0); when at most one assignment carries the control this
equals the claimed +2.0/+0.5/0 bonus; and the result never depends on the
game-state argument. -/
theorem calculate_payoff_spec (v : RACIGameValidator) (agent : Agent)
    (action : Action) (gs : GameState) :
    (calculate_payoff v agent action gs).payoff =
      action.compliance_value - action.cost * agent.cost_per_action -
      action.risk * (1 - agent.risk_tolerance) +
      (v.raci_assignments.map (bonusContribution agent action.control_id)).sum ∧
    (∀ gs' : GameState,
      calculate_payoff v agent action gs = calculate_payoff v agent action gs') ∧
    (v.raci_assignments.countP
        (fun asg => decide (asg.control_id = action.control_id)) ≤ 1 →
      (v.raci_assignments.map (bonusContribution agent action.control_id)).sum =
        specCooperationBonus v.raci_assignments agent action.control_id) := by
  refine ⟨?_, fun gs' => rfl, ?_⟩
  · unfold calculate_payoff
    simp [cooperation_bonus_eq_sum]
  · exact sum_bonusContribution_eq_spec agent action.control_id v.raci_assignments

/-- C4, witness: the amended theorem applied at a validator with a single
assignment for the control, where the summed bonus equals the claimed one. -/
theorem calculate_payoff_spec_witness :
    (calculate_payoff exInvertedValidator exOps exZeroAction exEmptyGameState).payoff =
      exZeroAction.compliance_value - exZeroAction.cost * exOps.cost_per_action -
      exZeroAction.risk * (1 - exOps.risk_tolerance) +
      (exInvertedValidator.raci_assignments.map
        (bonusContribution exOps exZeroAction.control_id)).sum ∧
    (exInvertedValidator.raci_assignments.map
        (bonusContribution exOps exZeroAction.control_id)).sum =
      specCooperationBonus exInvertedValidator.raci_assignments exOps
        exZeroAction.control_id := by
  have h := calculate_payoff_spec exInvertedValidator exOps exZeroAction exEmptyGameState
  exact ⟨h.1, h.2.2 (by decide)⟩

/-- Python's `max(payoffs, key=lambda p: p.payoff)`: scan left to right,
a later element replaces the running maximum only when strictly greater, so
the first maximal element wins. -/
def pyMaxByPayoff (head : PayoffMatrix) (tail : List PayoffMatrix) : PayoffMatrix :=
  tail.foldl (fun c x => if c.payoff < x.payoff then x else c) head

/-- `RACIGameValidator.find_best_response`: `None` on an empty action list,
otherwise the first payoff-maximal action if its payoff is positive, else
`None`. -/
def find_best_response (v : RACIGameValidator) (agent : Agent)
    (actions : List Action) (game_state : GameState) : Option Action :=
  match actions.map (fun action => calculate_payoff v agent action game_state) with
  | [] => none
  | p :: ps =>
    let best := pyMaxByPayoff p ps
    if 0 < best.payoff then some best.action else none

lemma pyMaxByPayoff_spec (t : List PayoffMatrix) (b : PayoffMatrix) :
    (pyMaxByPayoff b t = b ∧ ∀ y ∈ t, y.payoff ≤ b.payoff) ∨
    (∃ pre post, t = pre ++ pyMaxByPayoff b t :: post ∧
      b.payoff < (pyMaxByPayoff b t).payoff ∧
      (∀ y ∈ pre, y.payoff < (pyMaxByPayoff b t).payoff) ∧
      (∀ y ∈ post, y.payoff ≤ (pyMaxByPayoff b t).payoff)) := by
  induction t generalizing b with
  | nil => left; exact ⟨rfl, by simp⟩
  | cons a t ih =>
    by_cases hab : b.payoff < a.payoff
    · have hm : pyMaxByPayoff b (a :: t) = pyMaxByPayoff a t := by
        simp [pyMaxByPayoff, hab]
      rcases ih a with ⟨h1, h2⟩ | ⟨pre, post, h1, h2, h3, h4⟩
      · right
        refine ⟨[], t, ?_, ?_, ?_, ?_⟩
        · simp [hm, h1]
        · rw [hm, h1]; exact hab
        · simp
        · rw [hm, h1]; exact h2
      · right
        refine ⟨a :: pre, post, ?_, ?_, ?_, ?_⟩
        · rw [hm, List.cons_append, ← h1]
        · rw [hm]; exact lt_trans hab h2
        · intro y hy
          rcases List.mem_cons.mp hy with hy | hy
          · subst hy; rw [hm]; exact h2
          · rw [hm]; exact h3 y hy
        · intro y hy; rw [hm]; exact h4 y hy
    · have hm : pyMaxByPayoff b (a :: t) = pyMaxByPayoff b t := by
        simp [pyMaxByPayoff, hab]
      rcases ih b with ⟨h1, h2⟩ | ⟨pre, post, h1, h2, h3, h4⟩
      · left
        refine ⟨by rw [hm, h1], ?_⟩
        intro y hy
        rcases List.mem_cons.mp hy with hy | hy
        · subst hy; exact le_of_not_lt hab
        · exact h2 y hy
      · right
        refine ⟨a :: pre, post, ?_, ?_, ?_, ?_⟩
        · rw [hm, List.cons_append, ← h1]
        · rw [hm]; exact h2
        · intro y hy
          rcases List.mem_cons.mp hy with hy | hy
          · subst hy; rw [hm]
            exact lt_of_le_of_lt (le_of_not_lt hab) h2
          · rw [hm]; exact h3 y hy
        · intro y hy; rw [hm]; exact h4 y hy

lemma pyMaxByPayoff_ge (t : List PayoffMatrix) (b : PayoffMatrix) :
    b.payoff ≤ (pyMaxByPayoff b t).payoff ∧
    ∀ y ∈ t, y.payoff ≤ (pyMaxByPayoff b t).payoff := by
  rcases pyMaxByPayoff_spec t b with ⟨h1, h2⟩ | ⟨pre, post, h1, h2, h3, h4⟩
  · rw [h1]; exact ⟨le_refl _, h2⟩
  · refine ⟨le_of_lt h2, ?_⟩
    intro y hy
    rw [h1] at hy
    rcases List.mem_append.mp hy with hy | hy
    · exact le_of_lt (h3 y hy)
    · rcases List.mem_cons.mp hy with hy | hy
      · rw [hy]
      · exact h4 y hy

lemma map_eq_append_cons {α β : Type} (g : α → β) :
    ∀ (l : List α) (pre : List β) (m : β) (post : List β),
      l.map g = pre ++ m :: post →
      ∃ lp x ls, l = lp ++ x :: ls ∧ lp.map g = pre ∧ g x = m ∧ ls.map g = post := by
  intro l
  induction l with
  | nil => intro pre m post h; simp at h
  | cons a l ih =>
    intro pre m post h
    cases pre with
    | nil =>
      simp only [List.map_cons, List.nil_append] at h
      injection h with h1 h2
      exact ⟨[], a, l, by simp, rfl, h1, h2⟩
    | cons p pre' =>
      simp only [List.map_cons, List.cons_append] at h
      injection h with h1 h2
      obtain ⟨lp, x, ls, e1, e2, e3, e4⟩ := ih pre' m post h2
      exact ⟨a :: lp, x, ls, by simp [e1], by simp [h1, e2], e3, e4⟩

lemma pyMax_map_first {g : Action → PayoffMatrix} (hg : ∀ x, (g x).action = x)
    (a : Action) (rest : List Action) (act : Action)
    (hpos : 0 < (pyMaxByPayoff (g a) (rest.map g)).payoff)
    (h' : (pyMaxByPayoff (g a) (rest.map g)).action = act) :
    ∃ pre post, a :: rest = pre ++ act :: post ∧
      0 < (g act).payoff ∧
      (∀ y ∈ pre, (g y).payoff < (g act).payoff) ∧
      (∀ y ∈ post, (g y).payoff ≤ (g act).payoff) := by
  rcases pyMaxByPayoff_spec (rest.map g) (g a) with ⟨h1, h2⟩ | ⟨pre, post, h1, h2, h3, h4⟩
  · have hact : act = a := by rw [← h', h1, hg]
    subst hact
    rw [h1] at hpos h'
    refine ⟨[], rest, by simp, hpos, by simp, ?_⟩
    intro y hy
    exact h2 (g y) (List.mem_map_of_mem g hy)
  · obtain ⟨lp, x, ls, e1, e2, e3, e4⟩ := map_eq_append_cons g rest pre _ post h1
    have hact : act = x := by rw [← h', ← e3, hg]
    subst hact
    have hgact : g act = pyMaxByPayoff (g a) (rest.map g) := e3
    refine ⟨a :: lp, ls, by simp [e1], ?_, ?_, ?_⟩
    · rw [hgact]; exact hpos
    · intro y hy
      rw [hgact]
      rcases List.mem_cons.mp hy with hy | hy
      · subst hy; exact h2
      · exact h3 (g y) (by rw [← e2]; exact List.mem_map_of_mem g hy)
    · intro y hy
      rw [hgact]
      exact h4 (g y) (by rw [← e4]; exact List.mem_map_of_mem g hy)

/-- `find_best_response` returns the first-listed payoff-maximal action when
that maximum is positive. -/
lemma find_best_response_some (v : RACIGameValidator) (agent : Agent)
    (actions : List Action) (gs : GameState) (act : Action)
    (h : find_best_response v agent actions gs = some act) :
    ∃ pre post, actions = pre ++ act :: post ∧
      0 < (calculate_payoff v agent act gs).payoff ∧
      (∀ y ∈ pre,
        (calculate_payoff v agent y gs).payoff < (calculate_payoff v agent act gs).payoff) ∧
      (∀ y ∈ post,
        (calculate_payoff v agent y gs).payoff ≤ (calculate_payoff v agent act gs).payoff) := by
  cases actions with
  | nil => simp [find_best_response] at h
  | cons a rest =>
    unfold find_best_response at h
    simp only [List.map_cons] at h
    by_cases hpos : 0 < (pyMaxByPayoff (calculate_payoff v agent a gs)
        (rest.map (fun action => calculate_payoff v agent action gs))).payoff
    · rw [if_pos hpos] at h
      injection h with h'
      exact pyMax_map_first (g := fun action => calculate_payoff v agent action gs)
        (fun x => rfl) a rest act hpos h'
    · rw [if_neg hpos] at h
      exact absurd h (by simp)

/-- `find_best_response` returns `None` only when every candidate action has
non-positive payoff. -/
lemma find_best_response_none (v : RACIGameValidator) (agent : Agent)
    (actions : List Action) (gs : GameState)
    (h : find_best_response v agent actions gs = none) :
    ∀ y ∈ actions, (calculate_payoff v agent y gs).payoff ≤ 0 := by
  cases actions with
  | nil => simp
  | cons a rest =>
    unfold find_best_response at h
    simp only [List.map_cons] at h
    by_cases hpos : 0 < (pyMaxByPayoff (calculate_payoff v agent a gs)
        (rest.map (fun action => calculate_payoff v agent action gs))).payoff
    · rw [if_pos hpos] at h; exact absurd h (by simp)
    · push_neg at hpos
      intro y hy
      rcases List.mem_cons.mp hy with hy | hy
      · subst hy
        exact le_trans (pyMaxByPayoff_ge _ _).1 hpos
      · exact le_trans
          ((pyMaxByPayoff_ge (rest.map (fun action => calculate_payoff v agent action gs))
            (calculate_payoff v agent a gs)).2 _
            (List.mem_map_of_mem (fun action => calculate_payoff v agent action gs) hy))
          hpos

/-- The ordering used by `sorted(self.agents, key=lambda a: a.tier.value,
reverse=True)`: descending tier value. -/
def tierDescRel (a b : Agent) : Prop := b.tier.value ≤ a.tier.value

instance : DecidableRel tierDescRel := fun a b => Nat.decLe _ _

instance : IsTotal Agent tierDescRel :=
  ⟨fun a b => Nat.le_total b.tier.value a.tier.value⟩

instance : IsTrans Agent tierDescRel :=
  ⟨fun _ _ _ h1 h2 => le_trans h2 h1⟩

/-- Python's stable descending sort of the agents, modelled by the stable
`List.insertionSort`. -/
def sortAgentsByTierDesc (agents : List Agent) : List Agent :=
  List.insertionSort tierDescRel agents

/-- The `GameState(...)` constructed at the top of `stackelberg_equilibrium`
(default field values for the running totals). -/
def initGameState (v : RACIGameValidator) : GameState :=
  { agents := v.agents, raci_assignments := v.raci_assignments,
    actions_taken := [], compliance_score := 0, total_cost := 0, total_risk := 0 }

/-- One iteration of the loop in `stackelberg_equilibrium`: compute the best
response for `agent`, and when one exists append it to the action profile and
accumulate it into the running game state. -/
def stackStep (v : RACIGameValidator) (actions_by_agent : Agent → List Action)
    (st : GameState × List (Agent × Action)) (agent : Agent) :
    GameState × List (Agent × Action) :=
  match find_best_response v agent (actions_by_agent agent) st.1 with
  | some best_action =>
    ({ st.1 with
        actions_taken := st.1.actions_taken ++ [(agent, best_action)],
        compliance_score := st.1.compliance_score + best_action.compliance_value,
        total_cost := st.1.total_cost + best_action.cost,
        total_risk := st.1.total_risk + best_action.risk },
      st.2 ++ [(agent, best_action)])
  | none => st

/-- `RACIGameValidator.stackelberg_equilibrium`: agents sorted tier-descending,
each agent's best response (if any) appended to the profile and to the running
state.  The Python `actions_by_agent.get(agent, [])` dictionary is modelled as
a total function into lists. -/
def stackelberg_equilibrium (v : RACIGameValidator)
    (actions_by_agent : Agent → List Action) : List (Agent × Action) :=
  ((sortAgentsByTierDesc v.agents).foldl (stackStep v actions_by_agent)
    (initGameState v, [])).2

lemma find_best_response_state_independent (v : RACIGameValidator)
    (agent : Agent) (actions : List Action) (gs gs' : GameState) :
    find_best_response v agent actions gs = find_best_response v agent actions gs' :=
  rfl

lemma stackelberg_foldl_profile (v : RACIGameValidator)
    (actions_by_agent : Agent → List Action) :
    ∀ (l : List Agent) (gs : GameState) (prof : List (Agent × Action)),
      (l.foldl (stackStep v actions_by_agent) (gs, prof)).2 =
        prof ++ l.filterMap (fun agent =>
          (find_best_response v agent (actions_by_agent agent) (initGameState v)).map
            (fun act => (agent, act))) := by
  intro l
  induction l with
  | nil => intro gs prof; simp
  | cons a l ih =>
    intro gs prof
    simp only [List.foldl_cons, List.filterMap_cons]
    have hind : find_best_response v a (actions_by_agent a) gs =
        find_best_response v a (actions_by_agent a) (initGameState v) := rfl
    cases hfb : find_best_response v a (actions_by_agent a) (initGameState v) with
    | none =>
      have hstep : stackStep v actions_by_agent (gs, prof) a = (gs, prof) := by
        unfold stackStep
        rw [show find_best_response v a (actions_by_agent a) (gs, prof).1 =
          find_best_response v a (actions_by_agent a) (initGameState v) from rfl, hfb]
      rw [hstep, ih]
      simp
    | some act =>
      have hstep : stackStep v actions_by_agent (gs, prof) a =
          ({ gs with
              actions_taken := gs.actions_taken ++ [(a, act)],
              compliance_score := gs.compliance_score + act.compliance_value,
              total_cost := gs.total_cost + act.cost,
              total_risk := gs.total_risk + act.risk },
            prof ++ [(a, act)]) := by
        unfold stackStep
        rw [show find_best_response v a (actions_by_agent a) (gs, prof).1 =
          find_best_response v a (actions_by_agent a) (initGameState v) from rfl, hfb]
      rw [hstep, ih]
      simp

/-- C2: `stackelberg_equilibrium` (i) traverses a permutation of the agents
sorted pairwise tier-descending (Python's stable descending sort); (ii) its
profile is exactly that traversal with each agent mapped to its best
response, omitted when none exists; (iii) a returned best response is the
first-listed candidate action maximising the agent's payoff and has positive
payoff, earlier-listed candidates being strictly worse; (iv) a `None` entry
means every candidate has payoff ≤ 0; and (v) the computation is
deterministic: equal inputs give equal profiles. -/
theorem stackelberg_equilibrium_spec (v : RACIGameValidator)
    (actions_by_agent : Agent → List Action) :
    (sortAgentsByTierDesc v.agents).Perm v.agents ∧
    (sortAgentsByTierDesc v.agents).Pairwise tierDescRel ∧
    stackelberg_equilibrium v actions_by_agent =
      (sortAgentsByTierDesc v.agents).filterMap (fun agent =>
        (find_best_response v agent (actions_by_agent agent) (initGameState v)).map
          (fun act => (agent, act))) ∧
    (∀ agent acts gs act, find_best_response v agent acts gs = some act →
      ∃ pre post, acts = pre ++ act :: post ∧
        0 < (calculate_payoff v agent act gs).payoff ∧
        (∀ y ∈ pre, (calculate_payoff v agent y gs).payoff <
          (calculate_payoff v agent act gs).payoff) ∧
        (∀ y ∈ post, (calculate_payoff v agent y gs).payoff ≤
          (calculate_payoff v agent act gs).payoff)) ∧
    (∀ agent acts gs, find_best_response v agent acts gs = none →
      ∀ y ∈ acts, (calculate_payoff v agent y gs).payoff ≤ 0) ∧
    stackelberg_equilibrium v actions_by_agent =
      stackelberg_equilibrium v actions_by_agent := by
  refine ⟨List.perm_insertionSort tierDescRel v.agents, ?_, ?_, ?_, ?_, rfl⟩
  · exact List.sorted_insertionSort tierDescRel v.agents
  · unfold stackelberg_equilibrium
    rw [stackelberg_foldl_profile]
    simp
  · exact fun agent acts gs act h => find_best_response_some v agent acts gs act h
  · exact fun agent acts gs h => find_best_response_none v agent acts gs h

/-- Concrete action list for the witness: the first action dominates. -/
def exGoodAction : Action :=
  { action_id := "good", control_id := "APP-001", description := "",
    cost := 1, risk := 0, compliance_value := 5, requires_approval := false }

/-- C2, witness: the spec theorem applied to a concrete two-agent validator,
extracting the positive-payoff fact for the concrete chosen best response. -/
theorem stackelberg_equilibrium_spec_witness :
    0 < (calculate_payoff exInvertedValidator exOps exGoodAction exEmptyGameState).payoff := by
  obtain ⟨-, -, -, hsome, -, -⟩ :=
    stackelberg_equilibrium_spec exInvertedValidator (fun _ => [exGoodAction])
  obtain ⟨pre, post, -, hpos, -, -⟩ :=
    hsome exOps [exGoodAction] exEmptyGameState exGoodAction (by
      have hne : ("architect-agent" : String) ≠ "ops-agent" := by decide
      norm_num [find_best_response, pyMaxByPayoff, calculate_payoff,
        cooperation_bonus, exInvertedValidator, exInvertedAssignment,
        exGoodAction, exOps, exArchitect, hne])
  exact hpos

/-- `RACIGameValidator._get_agent_actions`: one synthesized `execute` action
per control assigned to the agent. -/
def get_agent_actions (agent : Agent) : List Action :=
  agent.controls.map (fun control =>
    { action_id := agent.agent_id ++ "_" ++ control ++ "_execute",
      control_id := control,
      description := "Execute " ++ control,
      cost := 1, risk := 3/10, compliance_value := 5,
      requires_approval := decide (3 ≤ agent.tier.value) })

/-- One message appended to `violations` by `check_nash_equilibrium`,
carrying the agent, its current action and the improving alternative that
the source interpolates into the f-string. -/
structure NashDeviation where
  agent : Agent
  current : Action
  alternative : Action
deriving DecidableEq, Repr

/-- The inner loop of `check_nash_equilibrium` for one `(agent, action)`
profile entry: every alternative from `_get_agent_actions`, skipping the
current action, is flagged when its payoff beats the current payoff by more
than the `0.01` epsilon. -/
def nashDeviationsFor (v : RACIGameValidator) (gs : GameState)
    (agent : Agent) (current : Action) : List NashDeviation :=
  (get_agent_actions agent).filterMap (fun alt =>
    if alt = current then none
    else if (calculate_payoff v agent current gs).payoff + 1/100 <
        (calculate_payoff v agent alt gs).payoff
      then some ⟨agent, current, alt⟩
      else none)

/-- `RACIGameValidator.check_nash_equilibrium`:
`(len(violations) == 0, violations)` over every profile entry. -/
def check_nash_equilibrium (v : RACIGameValidator) (gs : GameState)
    (action_profile : List (Agent × Action)) : Bool × List NashDeviation :=
  let violations := action_profile.foldl
    (fun acc p => acc ++ nashDeviationsFor v gs p.1 p.2) []
  (violations.isEmpty, violations)

lemma foldl_append_eq_flatMap {α β : Type} (f : α → List β) :
    ∀ (l : List α) (acc : List β),
      l.foldl (fun acc x => acc ++ f x) acc = acc ++ l.flatMap f := by
  intro l
  induction l with
  | nil => intro acc; simp
  | cons a l ih => intro acc; simp [ih]

/-- C3: `check_nash_equilibrium` reports `is_equilibrium = true` iff its
deviation list is empty, and a deviation for an agent's profile entry is
recorded exactly when some alternative candidate action of that agent,
different from the current one, has payoff strictly greater than the current
payoff plus ε = 0.01 — every profile entry and every alternative is examined,
with no early exit, and nothing below the ε margin is ever flagged. -/
theorem check_nash_equilibrium_spec (v : RACIGameValidator) (gs : GameState)
    (action_profile : List (Agent × Action)) :
    ((check_nash_equilibrium v gs action_profile).1 = true ↔
      (check_nash_equilibrium v gs action_profile).2 = []) ∧
    (∀ d : NashDeviation,
      d ∈ (check_nash_equilibrium v gs action_profile).2 ↔
        ((d.agent, d.current) ∈ action_profile ∧
          d.alternative ∈ get_agent_actions d.agent ∧
          d.alternative ≠ d.current ∧
          (calculate_payoff v d.agent d.current gs).payoff + 1/100 <
            (calculate_payoff v d.agent d.alternative gs).payoff)) := by
  constructor
  · exact List.isEmpty_iff
  · intro d
    show d ∈ action_profile.foldl
        (fun acc p => acc ++ nashDeviationsFor v gs p.1 p.2) [] ↔ _
    rw [foldl_append_eq_flatMap (fun p => nashDeviationsFor v gs p.1 p.2)
      action_profile []]
    simp only [List.nil_append, List.mem_flatMap]
    constructor
    · rintro ⟨p, hp, hdp⟩
      unfold nashDeviationsFor at hdp
      rw [List.mem_filterMap] at hdp
      obtain ⟨alt, halt, hsome⟩ := hdp
      by_cases h1 : alt = p.2
      · rw [if_pos h1] at hsome
        exact absurd hsome (by simp)
      · rw [if_neg h1] at hsome
        by_cases h2 : (calculate_payoff v p.1 p.2 gs).payoff + 1/100 <
            (calculate_payoff v p.1 alt gs).payoff
        · rw [if_pos h2] at hsome
          injection hsome with e
          subst e
          exact ⟨by simpa using hp, halt, h1, h2⟩
        · rw [if_neg h2] at hsome
          exact absurd hsome (by simp)
    · rintro ⟨h1, h2, h3, h4⟩
      refine ⟨(d.agent, d.current), h1, ?_⟩
      unfold nashDeviationsFor
      rw [List.mem_filterMap]
      refine ⟨d.alternative, h2, ?_⟩
      rw [if_neg h3, if_pos h4]

/-- C3, witness: the spec theorem instantiated at a concrete profile. -/
theorem check_nash_equilibrium_spec_witness :
    ((check_nash_equilibrium exInvertedValidator exEmptyGameState
        [(exOps, exGoodAction)]).1 = true ↔
      (check_nash_equilibrium exInvertedValidator exEmptyGameState
        [(exOps, exGoodAction)]).2 = []) :=
  (check_nash_equilibrium_spec exInvertedValidator exEmptyGameState
    [(exOps, exGoodAction)]).1

/-- `ProposalType` enum of `cooperative_improvement_validator.py`. -/
inductive ProposalType where
  | cost_reduction
  | efficiency_gain
  | workflow_optimization
  | risk_mitigation
  | compliance_enhancement
deriving DecidableEq, Repr

/-- `ReviewStatus` enum of `cooperative_improvement_validator.py`. -/
inductive ReviewStatus where
  | pending
  | in_review
  | approved
  | rejected
  | insufficient_review
deriving DecidableEq, Repr

/-- `ImprovementMetrics` dataclass. -/
structure ImprovementMetrics where
  cost_savings_usd : ℚ
  time_savings_hours : ℚ
  quality_improvement_pct : ℚ
  risk_reduction_pct : ℚ
  compliance_score_delta : ℚ
deriving DecidableEq, Repr

/-- `ImprovementMetrics.is_pareto_improvement`:
`all(m >= 0 for m in metrics) and any(m > 0 for m in metrics)`. -/
def is_pareto_improvement (m : ImprovementMetrics) : Bool :=
  ([m.cost_savings_usd, m.time_savings_hours, m.quality_improvement_pct,
    m.risk_reduction_pct, m.compliance_score_delta].all (fun x => decide (0 ≤ x))) &&
  ([m.cost_savings_usd, m.time_savings_hours, m.quality_improvement_pct,
    m.risk_reduction_pct, m.compliance_score_delta].any (fun x => decide (0 < x)))

/-- `ImprovementMetrics.total_value`: USD normalisation with the source's
constant rates. -/
def total_value (m : ImprovementMetrics) : ℚ :=
  m.cost_savings_usd + m.time_savings_hours * 75 +
    m.quality_improvement_pct * 100 + m.risk_reduction_pct * 500 +
    m.compliance_score_delta * 1000

/-- `Proposal` dataclass.  The `submitted_at` datetime is carried as an
integer timestamp; no embedded function reads it. -/
structure Proposal where
  proposal_id : String
  agent_id : String
  agent_tier : ℤ
  proposal_type : ProposalType
  title : String
  description : String
  current_state : String
  proposed_state : String
  metrics : ImprovementMetrics
  affected_controls : List String
  implementation_cost_usd : ℚ
  implementation_time_hours : ℚ
  risk_assessment : String
  submitted_at : ℤ
  jira_cr_id : Option String
deriving DecidableEq, Repr

/-- `Proposal.net_benefit`. -/
def net_benefit (p : Proposal) : ℚ :=
  total_value p.metrics - p.implementation_cost_usd

/-- A Python float ROI result: either `float('inf')` or a finite value. -/
inductive PyRoi where
  | inf
  | val (q : ℚ)
deriving DecidableEq, Repr

/-- Python division, raising `ZeroDivisionError` on a zero denominator. -/
def pyDiv (a b : ℚ) : Except String ℚ :=
  if b = 0 then .error "ZeroDivisionError" else .ok (a / b)

/-- `Proposal.roi`: the zero-cost branch is taken before any division. -/
def roi (p : Proposal) : Except String PyRoi :=
  if p.implementation_cost_usd = 0 then
    .ok (if 0 < total_value p.metrics then PyRoi.inf else PyRoi.val 0)
  else
    (pyDiv (total_value p.metrics) p.implementation_cost_usd).map PyRoi.val

/-- `roi < 1.2` as Python evaluates it (`inf < 1.2` is false). -/
def pyRoiLt (r : PyRoi) (q : ℚ) : Bool :=
  match r with
  | .inf => false
  | .val x => decide (x < q)

/-- `Proposal.complexity_score`: the accumulated score capped at 100.
The source accumulates `score += ...` from 0; the accumulation is written
as the equivalent sum. -/
def complexity_score (p : Proposal) : ℚ :=
  min ((p.affected_controls.length : ℚ) * 5
    + min p.implementation_time_hours 40
    + min (p.implementation_cost_usd / 100) 20
    + min ((p.description.length : ℚ) / 100) 15) 100

/-- One message appended to `issues` by `validate_pareto_improvement`. -/
inductive ParetoIssue where
  | notPareto
  | netBenefitNotPositive
  | roiTooLow
deriving DecidableEq, Repr

/-- `CooperativeImprovementValidator.validate_pareto_improvement`:
all three checks run, one issue per failed check,
`(len(issues) == 0, issues)` returned. -/
def validate_pareto_improvement (p : Proposal) :
    Except String (Bool × List ParetoIssue) :=
  let issues1 : List ParetoIssue :=
    if is_pareto_improvement p.metrics = true then [] else [.notPareto]
  let issues2 : List ParetoIssue :=
    if net_benefit p ≤ 0 then [.netBenefitNotPositive] else []
  match roi p with
  | .error e => .error e
  | .ok r =>
    let issues3 : List ParetoIssue :=
      if pyRoiLt r (6/5) = true then [.roiTooLow] else []
    let issues := issues1 ++ issues2 ++ issues3
    .ok (issues.isEmpty, issues)

/-- C5: `is_pareto_improvement` is true iff all five deltas are ≥ 0 and at
least one is > 0 (in particular the all-zero vector is rejected); and
`validate_pareto_improvement` returns `ok = false` exactly when the metrics
are not a Pareto improvement, or `net_benefit ≤ 0`, or `roi < 1.2`, with the
corresponding issue present for each failed condition (all of them, not just
the first). -/
theorem validate_pareto_improvement_spec :
    (∀ m : ImprovementMetrics,
      is_pareto_improvement m = true ↔
        ((0 ≤ m.cost_savings_usd ∧ 0 ≤ m.time_savings_hours ∧
          0 ≤ m.quality_improvement_pct ∧ 0 ≤ m.risk_reduction_pct ∧
          0 ≤ m.compliance_score_delta) ∧
         (0 < m.cost_savings_usd ∨ 0 < m.time_savings_hours ∨
          0 < m.quality_improvement_pct ∨ 0 < m.risk_reduction_pct ∨
          0 < m.compliance_score_delta))) ∧
    is_pareto_improvement ⟨0, 0, 0, 0, 0⟩ = false ∧
    (∀ (p : Proposal) (r : PyRoi) (ok : Bool) (issues : List ParetoIssue),
      roi p = .ok r → validate_pareto_improvement p = .ok (ok, issues) →
      ((ok = false ↔ (is_pareto_improvement p.metrics = false ∨
          net_benefit p ≤ 0 ∨ pyRoiLt r (6/5) = true)) ∧
       (ParetoIssue.notPareto ∈ issues ↔ is_pareto_improvement p.metrics = false) ∧
       (ParetoIssue.netBenefitNotPositive ∈ issues ↔ net_benefit p ≤ 0) ∧
       (ParetoIssue.roiTooLow ∈ issues ↔ pyRoiLt r (6/5) = true))) := by
  refine ⟨?_, by decide, ?_⟩
  · intro m
    simp [is_pareto_improvement, and_assoc]
  · intro p r ok issues h1 h2
    unfold validate_pareto_improvement at h2
    rw [h1] at h2
    by_cases hA : is_pareto_improvement p.metrics = true <;>
      by_cases hB : net_benefit p ≤ 0 <;>
        by_cases hC : pyRoiLt r (6/5) = true <;>
          · simp only [hA, hB, hC, if_true, if_false, reduceIte,
              List.append_nil, List.nil_append, List.append_assoc,
              List.cons_append, Except.ok.injEq, Prod.mk.injEq] at h2
            obtain ⟨hok, hiss⟩ := h2
            subst hok
            subst hiss
            simp [hA, hB, hC]

/-- A concrete well-formed proposal (the Scenario C shape from the spec). -/
def exGoodProposal : Proposal :=
  { proposal_id := "PROP-2025-001", agent_id := "ops-agent", agent_tier := 3,
    proposal_type := .cost_reduction, title := "Optimize Lambda memory",
    description := "", current_state := "", proposed_state := "",
    metrics := ⟨125, 0, 0, 5, 0⟩, affected_controls := ["MI-009", "MI-021"],
    implementation_cost_usd := 50, implementation_time_hours := 2,
    risk_assessment := "Low", submitted_at := 0, jira_cr_id := none }

/-- C5, witness: the spec theorem applied to the concrete Scenario-C
proposal, whose validation succeeds with no issues. -/
theorem validate_pareto_improvement_spec_witness :
    (true : Bool) = false ↔ (is_pareto_improvement exGoodProposal.metrics = false ∨
      net_benefit exGoodProposal ≤ 0 ∨ pyRoiLt (PyRoi.val (105/2)) (6/5) = true) := by
  have h1 : roi exGoodProposal = .ok (PyRoi.val (105/2)) := by
    norm_num [roi, pyDiv, total_value, Except.map, exGoodProposal]
  have h2 : validate_pareto_improvement exGoodProposal = .ok (true, []) := by
    norm_num [validate_pareto_improvement, roi, pyDiv, pyRoiLt, net_benefit,
      total_value, is_pareto_improvement, Except.map, exGoodProposal]
  exact (validate_pareto_improvement_spec.2.2 exGoodProposal
    (PyRoi.val (105/2)) true [] h1 h2).1

/-- A zero-cost proposal with positive claimed value. -/
def exZeroCostProposal : Proposal :=
  { exGoodProposal with
    proposal_id := "PROP-FREE",
    implementation_cost_usd := 0,
    metrics := ⟨10, 0, 0, 0, 0⟩ }

/-- C10: `roi` never raises `ZeroDivisionError` (for every proposal it
returns a value, and so does `validate_pareto_improvement`, which calls it),
and at zero implementation cost it returns `inf` when `total_value > 0` and
`0.0` otherwise, the zero-cost branch being taken before any division. -/
theorem roi_zero_cost_spec (p : Proposal) :
    (∃ r, roi p = Except.ok r) ∧
    (∃ res, validate_pareto_improvement p = Except.ok res) ∧
    (p.implementation_cost_usd = 0 →
      roi p = Except.ok
        (if 0 < total_value p.metrics then PyRoi.inf else PyRoi.val 0)) := by
  have hroi : ∃ r, roi p = Except.ok r := by
    by_cases hc : p.implementation_cost_usd = 0
    · exact ⟨_, by unfold roi; rw [if_pos hc]⟩
    · refine ⟨PyRoi.val (total_value p.metrics / p.implementation_cost_usd), ?_⟩
      unfold roi pyDiv
      rw [if_neg hc, if_neg hc]
      rfl
  obtain ⟨r, hr⟩ := hroi
  refine ⟨⟨r, hr⟩, ?_, ?_⟩
  · cases hval : validate_pareto_improvement p with
    | error e =>
      exfalso
      unfold validate_pareto_improvement at hval
      rw [hr] at hval
      simp at hval
    | ok res => exact ⟨res, rfl⟩
  · intro hc
    unfold roi
    rw [if_pos hc]

/-- C10, witness: the theorem applied at the concrete zero-cost proposal. -/
theorem roi_zero_cost_spec_witness :
    roi exZeroCostProposal = Except.ok
      (if 0 < total_value exZeroCostProposal.metrics then PyRoi.inf else PyRoi.val 0) :=
  (roi_zero_cost_spec exZeroCostProposal).2.2 rfl

/-- A proposal with negative claimed implementation time, driving the raw
complexity score below zero. -/
def exNegTimeProposal : Proposal :=
  { exGoodProposal with
    proposal_id := "PROP-NEG",
    affected_controls := [],
    implementation_time_hours := -10,
    implementation_cost_usd := 0,
    description := "" }

/-- C7, counterexample.  `complexity_score` only caps from above
(`min(score, 100.0)`); there is no lower clamp at 0, so a proposal with
negative implementation time yields a negative score, contradicting
`clamp(..., 0, 100)` and the claimed `[0, 100]` range. -/
theorem complexity_score_clamp_counterexample :
    complexity_score exNegTimeProposal = -10 ∧
    ¬ (0 ≤ complexity_score exNegTimeProposal) := by
  constructor <;> norm_num [complexity_score, exNegTimeProposal, exGoodProposal]

/-- C7 (amended): `complexity_score` equals
`min(5·|affected_controls| + min(time, 40) + min(cost/100, 20) +
min(len(description)/100, 15), 100)` with no lower clamp; it is always
≤ 100, it is ≥ 0 whenever the time and cost inputs are non-negative, and it
is non-decreasing in each of the four inputs. -/
theorem complexity_score_spec (p q : Proposal) :
    complexity_score p ≤ 100 ∧
    (0 ≤ p.implementation_time_hours → 0 ≤ p.implementation_cost_usd →
      0 ≤ complexity_score p) ∧
    (p.affected_controls.length ≤ q.affected_controls.length →
      p.implementation_time_hours ≤ q.implementation_time_hours →
      p.implementation_cost_usd ≤ q.implementation_cost_usd →
      p.description.length ≤ q.description.length →
      complexity_score p ≤ complexity_score q) := by
  unfold complexity_score
  refine ⟨min_le_right _ _, ?_, ?_⟩
  · intro ht hc
    have h1 : (0:ℚ) ≤ (p.affected_controls.length : ℚ) * 5 := by positivity
    have h2 : (0:ℚ) ≤ min p.implementation_time_hours 40 := le_min ht (by norm_num)
    have h3 : (0:ℚ) ≤ min (p.implementation_cost_usd / 100) 20 :=
      le_min (by positivity) (by norm_num)
    have h4 : (0:ℚ) ≤ min ((p.description.length : ℚ) / 100) 15 :=
      le_min (by positivity) (by norm_num)
    have h100 : (0:ℚ) ≤ 100 := by norm_num
    exact le_min (by linarith) h100
  · intro h1 h2 h3 h4
    have hcast1 : (p.affected_controls.length : ℚ) ≤ (q.affected_controls.length : ℚ) :=
      Nat.cast_le.mpr h1
    have hcast4 : (p.description.length : ℚ) ≤ (q.description.length : ℚ) :=
      Nat.cast_le.mpr h4
    apply min_le_min _ le_rfl
    have m1 : (p.affected_controls.length : ℚ) * 5 ≤ (q.affected_controls.length : ℚ) * 5 := by
      linarith
    have m2 : min p.implementation_time_hours 40 ≤ min q.implementation_time_hours 40 :=
      min_le_min h2 le_rfl
    have m3 : min (p.implementation_cost_usd / 100) 20 ≤
        min (q.implementation_cost_usd / 100) 20 :=
      min_le_min (by linarith) le_rfl
    have m4 : min ((p.description.length : ℚ) / 100) 15 ≤
        min ((q.description.length : ℚ) / 100) 15 :=
      min_le_min (by linarith) le_rfl
    linarith

/-- C7, witness: bounds of the amended theorem at the concrete proposal. -/
theorem complexity_score_spec_witness :
    0 ≤ complexity_score exGoodProposal ∧ complexity_score exGoodProposal ≤ 100 := by
  have h := complexity_score_spec exGoodProposal exGoodProposal
  exact ⟨h.2.1 (by norm_num [exGoodProposal]) (by norm_num [exGoodProposal]), h.1⟩

/-- The "underestimated cost" historical pattern of
`validate_truthful_reporting`:
`total_value > 10000 and implementation_cost_usd < 100`. -/
def badCostProposal (pp : Proposal) : Bool :=
  decide (10000 < total_value pp.metrics) && decide (pp.implementation_cost_usd < 100)

/-- The "overestimated benefit" historical pattern:
`implementation_time_hours < 1 and time_savings_hours > 100`. -/
def badTimeProposal (pp : Proposal) : Bool :=
  decide (pp.implementation_time_hours < 1) && decide (100 < pp.metrics.time_savings_hours)

/-- One warning appended by `validate_truthful_reporting`. -/
inductive TruthWarning where
  | newAgent
  | underestimatesCosts
  | overestimatesBenefits
  | disproportionateClaim
deriving DecidableEq, Repr

/-- `CooperativeImprovementValidator.validate_truthful_reporting`.  The
source subtracts the penalties sequentially from 1.0; the subtractions are
written as one expression, and `max(score, 0.0)` is the returned floor. -/
def validate_truthful_reporting (proposal : Proposal)
    (agent_history : List Proposal) : ℚ × List TruthWarning :=
  if agent_history.isEmpty then (9/10, [.newAgent])
  else
    let costPattern : Bool :=
      decide ((agent_history.length : ℚ) * (3/10) <
        ((agent_history.filter badCostProposal).length : ℚ))
    let timePattern : Bool :=
      decide ((agent_history.length : ℚ) * (3/10) <
        ((agent_history.filter badTimeProposal).length : ℚ))
    let redFlag : Bool :=
      decide (50000 < total_value proposal.metrics) &&
        decide (proposal.implementation_cost_usd < 500)
    let score : ℚ := 1 - (if costPattern then 1/5 else 0) -
      (if timePattern then 1/5 else 0) - (if redFlag then 1/10 else 0)
    let warnings : List TruthWarning :=
      (if costPattern then [.underestimatesCosts] else []) ++
      (if timePattern then [.overestimatesBenefits] else []) ++
      (if redFlag then [.disproportionateClaim] else [])
    (max score 0, warnings)

/-- A current proposal claiming 60000 of value on a 550 cost: more than
100× its cost, yet below the source's `value > 50000 and cost < 500`
red-flag condition (550 is not < 500). -/
def exOverclaimProposal : Proposal :=
  { exGoodProposal with
    proposal_id := "PROP-BIG",
    metrics := ⟨60000, 0, 0, 0, 0⟩,
    implementation_cost_usd := 550 }

/-- C6, counterexample.  With a clean one-proposal history and a current
proposal whose claimed value (60000) exceeds 100× its cost (550), the claim
prescribes a 0.1 deduction (score 0.9), but the source's red flag requires
`total_value > 50000 AND cost < 500`, so no deduction happens and the score
stays 1. -/
theorem validate_truthful_reporting_redflag_counterexample :
    (validate_truthful_reporting exOverclaimProposal [exGoodProposal]).1 = 1 ∧
    100 * exOverclaimProposal.implementation_cost_usd <
      total_value exOverclaimProposal.metrics ∧
    ((exGoodProposal :: []).filter badCostProposal).length = 0 ∧
    ((exGoodProposal :: []).filter badTimeProposal).length = 0 ∧
    ¬ ((validate_truthful_reporting exOverclaimProposal [exGoodProposal]).1 = 1 - 1/10) := by
  refine ⟨?_, ?_, ?_, ?_, ?_⟩ <;>
    norm_num [validate_truthful_reporting, badCostProposal, badTimeProposal,
      total_value, exOverclaimProposal, exGoodProposal]

/-- C6 (amended): `validate_truthful_reporting` returns 0.9 on an empty
history; otherwise it returns `max(1 − p₁ − p₂ − p₃, 0)` where `p₁ = 0.2`
when more than 30% of past proposals match the underestimated-cost pattern,
`p₂ = 0.2` when more than 30% match the overestimated-benefit pattern, and
`p₃ = 0.1` when the current proposal claims `total_value > 50000` with
`cost < 500` (not the claimed "value > 100× cost"); the score always lies
in `[0, 1]`. -/
theorem validate_truthful_reporting_spec (p : Proposal) (hist : List Proposal) :
    (hist = [] → (validate_truthful_reporting p hist).1 = 9/10) ∧
    0 ≤ (validate_truthful_reporting p hist).1 ∧
    (validate_truthful_reporting p hist).1 ≤ 1 ∧
    (hist ≠ [] →
      (validate_truthful_reporting p hist).1 =
        max ((1:ℚ) -
          (if (hist.length : ℚ) * (3/10) <
              ((hist.filter badCostProposal).length : ℚ) then 1/5 else 0) -
          (if (hist.length : ℚ) * (3/10) <
              ((hist.filter badTimeProposal).length : ℚ) then 1/5 else 0) -
          (if 50000 < total_value p.metrics ∧ p.implementation_cost_usd < 500
            then 1/10 else 0)) 0) := by
  by_cases hh : hist.isEmpty
  · have hnil : hist = [] := List.isEmpty_iff.mp hh
    subst hnil
    refine ⟨fun _ => by norm_num [validate_truthful_reporting], ?_, ?_, ?_⟩
    · norm_num [validate_truthful_reporting]
    · norm_num [validate_truthful_reporting]
    · intro hc; exact absurd rfl hc
  · have hne : hist ≠ [] := fun hc => by simp [hc] at hh
    have key : (validate_truthful_reporting p hist).1 =
        max ((1:ℚ) -
          (if (hist.length : ℚ) * (3/10) <
              ((hist.filter badCostProposal).length : ℚ) then 1/5 else 0) -
          (if (hist.length : ℚ) * (3/10) <
              ((hist.filter badTimeProposal).length : ℚ) then 1/5 else 0) -
          (if 50000 < total_value p.metrics ∧ p.implementation_cost_usd < 500
            then 1/10 else 0)) 0 := by
      simp only [validate_truthful_reporting, hh, Bool.false_eq_true, reduceIte,
        Bool.and_eq_true, decide_eq_true_eq]
    refine ⟨fun hc => absurd hc hne, ?_, ?_, fun _ => key⟩
    · rw [key]; exact le_max_right _ _
    · rw [key]
      apply max_le _ (by norm_num)
      split_ifs <;> norm_num

/-- C6, witness: the amended theorem applied at the concrete inputs of the
counterexample scenario. -/
theorem validate_truthful_reporting_spec_witness :
    ((9:ℚ)/10 = 9/10) ∧
    0 ≤ (validate_truthful_reporting exOverclaimProposal [exGoodProposal]).1 ∧
    (validate_truthful_reporting exOverclaimProposal [exGoodProposal]).1 ≤ 1 := by
  have h := validate_truthful_reporting_spec exOverclaimProposal [exGoodProposal]
  have h0 := validate_truthful_reporting_spec exOverclaimProposal []
  exact ⟨h0.1 rfl, h.2.1, h.2.2.1⟩

/-- `HumanReview` dataclass; the datetimes are carried as integer
timestamps, duration as the float minutes field the validator reads. -/
structure HumanReview where
  review_id : String
  reviewer_id : String
  reviewer_role : String
  proposal_id : String
  status : ReviewStatus
  review_start_time : ℤ
  review_end_time : Option ℤ
  review_duration_minutes : ℚ
  comments : String
  approval_signature : Option String
  concerns_raised : List String
  questions_asked : ℤ
  documents_reviewed : List String
deriving DecidableEq, Repr

/-- The engagement-marker count of `validate_review_diligence`. -/
def engagement_score (review : HumanReview) : ℤ :=
  (if 0 < review.questions_asked then 1 else 0) +
  (if 0 < review.documents_reviewed.length then 1 else 0) +
  (if 100 < review.comments.length then 1 else 0) +
  (if review.concerns_raised ≠ [] then 1 else 0)

/-- One message appended to `issues` by `validate_review_diligence`. -/
inductive DiligenceIssue where
  | reviewTooShort
  | reviewTooLong
  | insufficientComments
  | noConcernsForRejection
  | lowEngagement
deriving DecidableEq, Repr

/-- `CooperativeImprovementValidator.validate_review_diligence` with
`MIN_REVIEW_MINUTES_PER_COMPLEXITY = 0.5` and
`MAX_REVIEW_MINUTES_PER_COMPLEXITY = 3.0`. -/
def validate_review_diligence (p : Proposal) (review : HumanReview) :
    Bool × List DiligenceIssue :=
  let complexity := complexity_score p
  let min_expected_minutes := complexity * (1/2)
  let max_expected_minutes := complexity * 3
  let i1 : List DiligenceIssue :=
    if review.review_duration_minutes < min_expected_minutes
      then [.reviewTooShort] else []
  let i2 : List DiligenceIssue :=
    if max_expected_minutes * 2 < review.review_duration_minutes
      then [.reviewTooLong] else []
  let i3 : List DiligenceIssue :=
    if review.status = ReviewStatus.approved ∧ review.comments.length < 50
      then [.insufficientComments] else []
  let i4 : List DiligenceIssue :=
    if review.status = ReviewStatus.rejected ∧ review.concerns_raised = []
      then [.noConcernsForRejection] else []
  let i5 : List DiligenceIssue :=
    if engagement_score review < 2 then [.lowEngagement] else []
  let issues := i1 ++ i2 ++ i3 ++ i4 ++ i5
  (issues.isEmpty, issues)

/-- C8: `validate_review_diligence` returns `is_diligent = true` iff none of
the five flags fires, and each flag is independently checked and reported:
duration below `0.5·complexity`; duration above `2×` the `3.0·complexity`
maximum; approved with comments shorter than 50 characters; rejected with no
recorded concerns; engagement score (questions>0, documents>0, comments>100
chars, concerns present) below 2. -/
theorem validate_review_diligence_spec (p : Proposal) (review : HumanReview) :
    ((validate_review_diligence p review).1 = true ↔
      (¬ (review.review_duration_minutes < complexity_score p * (1/2)) ∧
       ¬ (complexity_score p * 3 * 2 < review.review_duration_minutes) ∧
       ¬ (review.status = ReviewStatus.approved ∧ review.comments.length < 50) ∧
       ¬ (review.status = ReviewStatus.rejected ∧ review.concerns_raised = []) ∧
       ¬ (engagement_score review < 2))) ∧
    (DiligenceIssue.reviewTooShort ∈ (validate_review_diligence p review).2 ↔
      review.review_duration_minutes < complexity_score p * (1/2)) ∧
    (DiligenceIssue.reviewTooLong ∈ (validate_review_diligence p review).2 ↔
      complexity_score p * 3 * 2 < review.review_duration_minutes) ∧
    (DiligenceIssue.insufficientComments ∈ (validate_review_diligence p review).2 ↔
      (review.status = ReviewStatus.approved ∧ review.comments.length < 50)) ∧
    (DiligenceIssue.noConcernsForRejection ∈ (validate_review_diligence p review).2 ↔
      (review.status = ReviewStatus.rejected ∧ review.concerns_raised = [])) ∧
    (DiligenceIssue.lowEngagement ∈ (validate_review_diligence p review).2 ↔
      engagement_score review < 2) := by
  simp only [validate_review_diligence]
  split_ifs with h1 h2 h3 h4 h5 <;> simp_all

/-- A plainly diligent concrete review. -/
def exDiligentReview : HumanReview :=
  { review_id := "REV-2025-001", reviewer_id := "change-manager",
    reviewer_role := "Change Manager", proposal_id := "PROP-2025-001",
    status := .approved, review_start_time := 0, review_end_time := some 25,
    review_duration_minutes := 25,
    comments := String.mk (List.replicate 120 'x'),
    approval_signature := some "sig", concerns_raised := [],
    questions_asked := 3, documents_reviewed := ["metrics.pdf"] }

/-- C8, witness: the first membership equivalence at a concrete review. -/
theorem validate_review_diligence_spec_witness :
    DiligenceIssue.reviewTooShort ∈
        (validate_review_diligence exGoodProposal exDiligentReview).2 ↔
      exDiligentReview.review_duration_minutes <
        complexity_score exGoodProposal * (1/2) :=
  (validate_review_diligence_spec exGoodProposal exDiligentReview).2.1

/-- Modelled from the spec: the tit-for-tat `cooperation_score` update of
the `AgentReputation` record exercised by `test_tit_for_tat.py`.  The
`AgentReputation` class and `record_proposal_outcome` are absent from the
validator source under `src/`, so the update rule follows spec §4.9:
`+0.05` capped at 1.0 when `outcome_quality ≥ 0.85`, `−0.3` floored at 0.0
when `outcome_quality < 0.5`, unchanged otherwise. -/
def updateCooperationScore (score : ℚ) (outcome_quality : ℚ) : ℚ :=
  if 85/100 ≤ outcome_quality then min 1 (score + 5/100)
  else if outcome_quality < 1/2 then max 0 (score - 3/10)
  else score

/-- C9, counterexample.  From 1.0, one defection lands exactly at 0.7, and
three cooperation rounds (+0.05 each) reach exactly 0.85 — not the claimed
≥ 0.95 (the qualities 0 and 0.9 do satisfy the defection/cooperation
cutoffs). -/
theorem tit_for_tat_recovery_counterexample :
    updateCooperationScore 1 0 = 7/10 ∧
    updateCooperationScore (updateCooperationScore
      (updateCooperationScore (updateCooperationScore 1 0) (9/10)) (9/10)) (9/10)
      = 17/20 ∧
    ¬ (19/20 ≤ (17/20 : ℚ)) ∧ (0:ℚ) < 1/2 ∧ (85/100 : ℚ) ≤ 9/10 := by
  refine ⟨?_, ?_, ?_, ?_, ?_⟩ <;> norm_num [updateCooperationScore]

/-- C9 (amended): starting from `cooperation_score = 1.0`, one resolved
proposal with `outcome_quality < 0.5` drops the score to ≤ 0.7 (exactly
0.7), and three subsequent proposals with `outcome_quality ≥ 0.85` raise it
back to ≥ 0.85 (exactly 0.85, not the claimed 0.95). -/
theorem tit_for_tat_recovery_spec (q0 q1 q2 q3 : ℚ)
    (hd : q0 < 1/2) (h1 : 85/100 ≤ q1) (h2 : 85/100 ≤ q2) (h3 : 85/100 ≤ q3) :
    updateCooperationScore 1 q0 ≤ 7/10 ∧
    17/20 ≤ updateCooperationScore (updateCooperationScore
      (updateCooperationScore (updateCooperationScore 1 q0) q1) q2) q3 := by
  have hq0 : ¬ (85/100 ≤ q0) := by linarith
  have e0 : updateCooperationScore 1 q0 = 7/10 := by
    unfold updateCooperationScore
    rw [if_neg hq0, if_pos hd]
    norm_num
  rw [e0]
  refine ⟨le_refl _, ?_⟩
  have e1 : updateCooperationScore (7/10) q1 = 3/4 := by
    unfold updateCooperationScore; rw [if_pos h1]; norm_num
  have e2 : updateCooperationScore (3/4) q2 = 4/5 := by
    unfold updateCooperationScore; rw [if_pos h2]; norm_num
  have e3 : updateCooperationScore (4/5) q3 = 17/20 := by
    unfold updateCooperationScore; rw [if_pos h3]; norm_num
  rw [e1, e2, e3]

/-- C9, witness: the amended theorem at concrete outcome qualities. -/
theorem tit_for_tat_recovery_spec_witness :
    updateCooperationScore 1 0 ≤ 7/10 ∧
    17/20 ≤ updateCooperationScore (updateCooperationScore
      (updateCooperationScore (updateCooperationScore 1 0) (9/10)) (9/10)) (9/10) :=
  tit_for_tat_recovery_spec 0 (9/10) (9/10) (9/10)
    (by norm_num) (by norm_num) (by norm_num) (by norm_num)

end Governance
